import Mathlib

set_option linter.unusedVariables false

/-!
Shallow embedding of `src/run_kuzco_workers.py`, a process supervisor that
runs N instances of a shell command, restarts them on exit, read error or
stall, periodically restarts the whole fleet, and stops on SIGINT.

The embedding models:
* `terminate_process` (lines 11-39) over an abstract `psutil` environment
  `PsEnv`, producing a trace of `TermAction`s; Python exceptions are the
  `PsErr` values the environment's operations may return, and a result of
  `Except.error` models an exception escaping the function.
* `run_worker` (lines 41-81) as a loop over per-iteration observations
  `IterObs` (stop-flag value at the loop head, spawn result, the value a
  completed `readline()` returned, `poll()` results, clock readings).  A
  `readline()` that never returns produces no iteration at all, since the
  read is the loop's sole blocking point.
* the fleet supervisor, `restart_all_workers` (lines 87-100), the startup
  loop of `main` (lines 115-120), the shutdown join (lines 128-130) and
  `signal_handler` (lines 83-85), as generators of `SupAction` traces and a
  step function over `SupEvent`s.
-/

namespace KuzcoWorkers

/-- Exceptions the psutil operations may raise: `psutil.NoSuchProcess`
(caught by the first `except` clause, line 34) or any other `Exception`
(caught by the second, line 36). -/
inductive PsErr where
  | noSuchProcess : PsErr
  | other : String → PsErr
deriving DecidableEq, Repr

/-- Observable actions of `terminate_process` (log lines, signals sent,
the wait). -/
inductive TermAction where
  | logTerminating : TermAction
  | termChild : Nat → TermAction
  | termParent : Nat → TermAction
  | waitA : List Nat → Nat → TermAction
  | killP : Nat → TermAction
  | logAlreadyTerminated : TermAction
  | logError : String → TermAction
  | logCompleted : TermAction
deriving DecidableEq, Repr

/-- Abstract psutil environment: results of the external calls
`terminate_process` makes (process lookup, recursive child enumeration,
terminate and kill signals, `wait_procs`).  Each may raise a `PsErr`. -/
structure PsEnv where
  getProc : Nat → Except PsErr Unit
  getChildren : Nat → Except PsErr (List Nat)
  termSig : Nat → Except PsErr Unit
  waitProcs : List Nat → Nat → Except PsErr (List Nat × List Nat)
  killSig : Nat → Except PsErr Unit

/-- The `for child in children: child.terminate()` loop (lines 22-23):
signals each child in order; on a raised error the loop stops and the
error propagates to the surrounding `try`. -/
def signalChildren (env : PsEnv) : List Nat → List TermAction × Option PsErr
  | [] => ([], none)
  | c :: cs =>
    match env.termSig c with
    | Except.error e => ([], some e)
    | Except.ok _ =>
      let r := signalChildren env cs
      (TermAction.termChild c :: r.1, r.2)

/-- The `for p in alive: print(...); p.kill()` loop (lines 30-32): the
force-kill log line is printed before each kill signal. -/
def killSurvivors (env : PsEnv) : List Nat → List TermAction × Option PsErr
  | [] => ([], none)
  | p :: ps =>
    match env.killSig p with
    | Except.error e => ([TermAction.killP p], some e)
    | Except.ok _ =>
      let r := killSurvivors env ps
      (TermAction.killP p :: r.1, r.2)

/-- The body of the `try` block of `terminate_process` (lines 17-32):
look up the parent, enumerate recursive children, terminate children then
parent, wait up to 3 seconds, force-kill survivors.  Returns the actions
performed and the exception, if any, that escaped the block. -/
def terminateTry (env : PsEnv) (pid : Nat) : List TermAction × Option PsErr :=
  match env.getProc pid with
  | Except.error e => ([], some e)
  | Except.ok _ =>
    match env.getChildren pid with
    | Except.error e => ([], some e)
    | Except.ok children =>
      match signalChildren env children with
      | (acts, some e) => (acts, some e)
      | (acts, none) =>
        match env.termSig pid with
        | Except.error e => (acts, some e)
        | Except.ok _ =>
          let acts1 := acts ++ [TermAction.termParent pid]
          match env.waitProcs (children ++ [pid]) 3 with
          | Except.error e => (acts1, some e)
          | Except.ok (_, alive) =>
            let acts2 := acts1 ++ [TermAction.waitA (children ++ [pid]) 3]
            let k := killSurvivors env alive
            (acts2 ++ k.1, k.2)

/-- `terminate_process(process, worker_id)` (lines 11-39).  `process` is
the optional pid held by the handle; `none` models `process is None`
(line 12, immediate return).  Both `except` clauses (lines 34-37) catch
every modelled exception, turning it into a log action, and the trailing
"termination completed" line (line 39) always runs; a result of
`Except.error` would model an exception escaping the call. -/
def terminate_process (env : PsEnv) (process : Option Nat) (workerId : Nat) :
    Except PsErr (List TermAction) :=
  match process with
  | none => Except.ok []
  | some pid =>
    let r := terminateTry env pid
    let caught : List TermAction :=
      match r.2 with
      | none => []
      | some PsErr.noSuchProcess => [TermAction.logAlreadyTerminated]
      | some (PsErr.other m) => [TermAction.logError m]
    Except.ok (TermAction.logTerminating :: r.1 ++ caught ++
      [TermAction.logCompleted])

/-- Result of a `process.stdout.readline()` call that returned (line 56):
a truthy (non-empty) line, a falsy (empty) read, or a raised I/O error.
A read that never returns is not represented: it produces no loop
iteration. -/
inductive ReadResult where
  | line : String → ReadResult
  | empty : ReadResult
  | err : String → ReadResult
deriving DecidableEq, Repr

/-- Bool-valued check that `needle` occurs as a contiguous substring of
`hay`, modelling Python's `needle in hay` on strings (line 62). -/
def listStartsWith : List Char → List Char → Bool
  | _, [] => true
  | [], _ :: _ => false
  | h :: hs, n :: ns => h == n && listStartsWith hs ns

/-- Substring search over the character list of the haystack. -/
def listHasInfix : List Char → List Char → Bool
  | hs, ns =>
    if listStartsWith hs ns then true
    else
      match hs with
      | [] => false
      | _ :: t => listHasInfix t ns

/-- Python `needle in hay` for strings. -/
def strContains (hay needle : String) : Bool :=
  listHasInfix hay.toList needle.toList

/-- Mutable state of one `run_worker` loop: the current child process pid
(`process`, line 42, `none` for Python `None`) and `last_inference_time`
(line 43), modelled as a clock reading in seconds. -/
structure WorkerState where
  process : Option Nat
  lastInference : Nat
deriving DecidableEq, Repr

/-- What one iteration of the `while` loop of `run_worker` observes from
its environment: the stop flag at the loop head (line 45), the result of
`subprocess.Popen` if a spawn happens (line 51, an error models a raised
exception), whether `process.poll()` at line 46 reported an exited child,
the completed read's result (line 56), whether `poll()` at line 66 reported
the child still running, and the wall-clock readings (seconds) taken at
lines 52 and 63/67. -/
structure IterObs where
  stopSet : Bool
  spawn : Except String Nat
  pollExitedAtSpawn : Bool
  read : ReadResult
  pollAliveAtEmpty : Bool
  nowSpawn : Nat
  nowRead : Nat
deriving Repr

/-- Observable actions of `run_worker`.  `termCall p` is a call
`terminate_process(process, worker_id)` with handle `p` (a no-op when
`p = none`). -/
inductive WAction where
  | spawned : Nat → WAction
  | logRestart : WAction
  | logStall : WAction
  | logReadError : String → WAction
  | emitLine : String → WAction
  | termCall : Option Nat → WAction
  | sleep5 : WAction
  | logStopping : WAction
deriving DecidableEq, Repr

/-- The `try` block of `run_worker` (lines 54-71) after a completed read.
On a truthy line: emit it unless silent and refresh `last_inference_time`
when the line contains the marker `"Inference finished"` (lines 57-63).
On an empty read with the child still running: terminate and drop the
child and reset `last_inference_time` exactly when strictly more than
`timeout` minutes (60·timeout seconds) elapsed since the last liveness
(lines 64-71).  On a raised read error, the `except` clause (lines 73-77):
log, terminate, drop the child, sleep 5 — without touching
`last_inference_time`. -/
def readPhase (silent : Bool) (timeout : Nat) (obs : IterObs) (s : WorkerState) :
    WorkerState × List WAction :=
  match obs.read with
  | ReadResult.line out =>
    let acts := if silent then [] else [WAction.emitLine out]
    if strContains out "Inference finished" then
      ({ s with lastInference := obs.nowRead }, acts)
    else
      (s, acts)
  | ReadResult.empty =>
    if obs.pollAliveAtEmpty then
      if obs.nowRead - s.lastInference > 60 * timeout then
        ({ process := none, lastInference := obs.nowRead },
         [WAction.logStall, WAction.termCall s.process])
      else
        (s, [])
    else
      (s, [])
  | ReadResult.err m =>
    ({ s with process := none },
     [WAction.logReadError m, WAction.termCall s.process, WAction.sleep5])

/-- One iteration of the `while` body of `run_worker` (lines 46-77), given
that the stop flag was clear at the loop head.  The spawn phase
(lines 46-52) runs first: when `process is None or process.poll() is not
None` (with Python's short-circuit: `poll` is consulted only when a
process exists) it terminates the old process if any, then calls `Popen`
— which sits OUTSIDE the `try`, so a raised spawn error (`Except.error`)
propagates out of the iteration.  The read phase is the `try` block. -/
def run_worker_iter (silent : Bool) (timeout : Nat) (obs : IterObs)
    (s : WorkerState) : Except String (WorkerState × List WAction) :=
  let needSpawn :=
    match s.process with
    | none => true
    | some _ => obs.pollExitedAtSpawn
  if needSpawn then
    let preActs :=
      match s.process with
      | none => []
      | some p => [WAction.logRestart, WAction.termCall (some p)]
    match obs.spawn with
    | Except.error e => Except.error e
    | Except.ok pid =>
      let s1 : WorkerState := { process := some pid, lastInference := obs.nowSpawn }
      let r := readPhase silent timeout obs s1
      Except.ok (r.1, preActs ++ WAction.spawned pid :: r.2)
  else
    let r := readPhase silent timeout obs s
    Except.ok (r.1, r.2)

/-- Actions of the post-loop epilogue of `run_worker` (lines 79-81): when
a process is held, log and terminate it. -/
def stopActs (s : WorkerState) : List WAction :=
  match s.process with
  | none => []
  | some p => [WAction.logStopping, WAction.termCall (some p)]

/-- Outcome of running `run_worker` through a finite observation trace:
either the loop observed the stop flag and returned (`stopped`), or the
observations ran out with the loop still going — in particular when the
current read never completes (`running`). -/
inductive RunOutcome where
  | stopped : List WAction → RunOutcome
  | running : WorkerState → List WAction → RunOutcome
deriving DecidableEq, Repr

/-- The `while not stop_flag.is_set()` loop of `run_worker` (lines 45-81)
driven by a trace of per-iteration observations.  Each completed read is
one `IterObs`; the stop flag is re-checked only at the loop head, i.e.
only after the previous read completed.  An `Except.error` result models
an exception escaping `run_worker` and killing the worker thread. -/
def run_worker (silent : Bool) (timeout : Nat) :
    List IterObs → WorkerState → Except String RunOutcome
  | [], s => Except.ok (RunOutcome.running s [])
  | obs :: rest, s =>
    if obs.stopSet then
      Except.ok (RunOutcome.stopped (stopActs s))
    else
      match run_worker_iter silent timeout obs s with
      | Except.error e => Except.error e
      | Except.ok (s1, acts) =>
        match run_worker silent timeout rest s1 with
        | Except.error e => Except.error e
        | Except.ok (RunOutcome.stopped acts2) =>
          Except.ok (RunOutcome.stopped (acts ++ acts2))
        | Except.ok (RunOutcome.running s2 acts2) =>
          Except.ok (RunOutcome.running s2 (acts ++ acts2))

/-- Observable actions of the fleet supervisor (`main`,
`restart_all_workers`, `signal_handler`).  `terminateChild` would be a
supervisor-side `terminate_process` call on a worker's child; it is in the
vocabulary so that its absence from the supervisor's code paths is
expressible. -/
inductive SupAction where
  | logRestartAll : SupAction
  | setFlag : SupAction
  | joinWorker : Nat → SupAction
  | clearFlag : SupAction
  | startWorker : Nat → SupAction
  | sleepSec : Nat → SupAction
  | terminateChild : Nat → SupAction
  | logCtrlC : SupAction
  | logStopping2 : SupAction
deriving DecidableEq, Repr

/-- The startup loop shared by `main` (lines 115-120) and the restart tail
of `restart_all_workers` (lines 94-99): for `i` in `range n`, start the
worker thread for id `i` and then sleep 1 second. -/
def startWorkers (n : Nat) : List SupAction :=
  ((List.range n).map
    (fun i => [SupAction.startWorker i, SupAction.sleepSec 1])).flatten

/-- `restart_all_workers(threads, ...)` (lines 87-100) with `n` current
threads: log, set the stop flag, join thread 0, ..., thread n-1 in list
order, clear the flag, then start n fresh workers with the 1-second
stagger. -/
def restart_all_workers (n : Nat) : List SupAction :=
  SupAction.logRestartAll :: SupAction.setFlag ::
    (List.range n).map SupAction.joinWorker ++
    SupAction.clearFlag :: startWorkers n

/-- The shutdown sequence in the `except KeyboardInterrupt` clause of
`main` (lines 127-130): log, set the stop flag, join every thread.  (No
flag clear and no new starts — and no child termination either.) -/
def shutdownJoin (n : Nat) : List SupAction :=
  SupAction.logStopping2 :: SupAction.setFlag ::
    (List.range n).map SupAction.joinWorker

/-- External events reaching the supervisor's main loop: delivery of
SIGINT, or the 5-minute `time.sleep(300)` (line 124) elapsing so the loop
body runs `restart_all_workers`. -/
inductive SupEvent where
  | sigint : SupEvent
  | tick : SupEvent
deriving DecidableEq, Repr

/-- Supervisor state: the shared `stop_flag` Event, whether `main` has
returned, and the accumulated action trace. -/
structure SupState where
  stopFlag : Bool
  exited : Bool
  trace : List SupAction
deriving DecidableEq, Repr

/-- Effect of one supervisor action on the shared `stop_flag`
(`stop_flag.set()` / `stop_flag.clear()`). -/
def applyFlag (flag : Bool) : SupAction → Bool
  | SupAction.setFlag => true
  | SupAction.clearFlag => false
  | _ => flag

/-- `signal_handler(signum, frame)` (lines 83-85): print and
`stop_flag.set()`. -/
def signal_handler (s : SupState) : SupState :=
  { stopFlag := true, exited := s.exited,
    trace := s.trace ++ [SupAction.logCtrlC, SupAction.setFlag] }

/-- One step of the supervisor under an external event.  `main` installs
`signal_handler` for SIGINT (line 110), replacing Python's default handler
that raises `KeyboardInterrupt`; hence delivery of SIGINT runs
`signal_handler` only, the `except KeyboardInterrupt` clause
(lines 126-132) is not reached by the signal, and the `while True` loop
(lines 123-125) proceeds to its next tick, where it runs
`restart_all_workers` unconditionally. -/
def supervisor_step (n : Nat) (s : SupState) : SupEvent → SupState
  | SupEvent.sigint => signal_handler s
  | SupEvent.tick =>
    if s.exited then s
    else
      let acts := SupAction.sleepSec 300 :: restart_all_workers n
      { stopFlag := acts.foldl applyFlag s.stopFlag, exited := s.exited,
        trace := s.trace ++ acts }

/-- The supervisor driven through a list of external events. -/
def supervisor_run (n : Nat) (s : SupState) : List SupEvent → SupState
  | [] => s
  | e :: es => supervisor_run n (supervisor_step n s e) es

/-- Supervisor state when the main loop is entered: flag clear, not
exited, empty trace. -/
def supInit : SupState :=
  { stopFlag := false, exited := false, trace := [] }

/-- `true` when an `Except` computation returned normally rather than
raising. -/
def exceptOk {ε α : Type} : Except ε α → Bool
  | Except.ok _ => true
  | Except.error _ => false

/-- `true` exactly on supervisor-side child-termination actions. -/
def isTerminateChild : SupAction → Bool
  | SupAction.terminateChild _ => true
  | _ => false

/-- The worker id started by an action, when it is a start. -/
def startedId : SupAction → Option Nat
  | SupAction.startWorker i => some i
  | _ => none

/-- C5: on an empty read while the child is still alive (and the loop head
saw a live process, so no respawn preceded the read), the iteration
terminates the child exactly when strictly more than `60 * timeout`
seconds elapsed since the last liveness, in which case the state moves to
no-process with the liveness clock reset to now; at elapsed equal to the
timeout nothing happens. -/
theorem stall_strict_boundary (silent : Bool) (timeout : Nat) (obs : IterObs)
    (s : WorkerState) (p : Nat)
    (hp : s.process = some p)
    (hpoll : obs.pollExitedAtSpawn = false)
    (hread : obs.read = ReadResult.empty)
    (halive : obs.pollAliveAtEmpty = true) :
    (obs.nowRead - s.lastInference > 60 * timeout →
      run_worker_iter silent timeout obs s =
        Except.ok ({ process := none, lastInference := obs.nowRead },
          [WAction.logStall, WAction.termCall (some p)])) ∧
    (¬ obs.nowRead - s.lastInference > 60 * timeout →
      run_worker_iter silent timeout obs s = Except.ok (s, [])) ∧
    (obs.nowRead - s.lastInference = 60 * timeout →
      run_worker_iter silent timeout obs s = Except.ok (s, [])) := by
  refine ⟨fun hgt => ?_, fun hle => ?_, fun heq => ?_⟩
  · simp [run_worker_iter, readPhase, hp, hpoll, hread, halive, hgt]
  · simp [run_worker_iter, readPhase, hp, hpoll, hread, halive, hle]
  · simp [run_worker_iter, readPhase, hp, hpoll, hread, halive, heq]

/-- C5 witness: with timeout 1 minute and last liveness at 0, an empty
read at 60 seconds leaves the state untouched, while one at 61 seconds
terminates the child. -/
theorem stall_strict_boundary_witness :
    run_worker_iter false 1
        { stopSet := false, spawn := Except.ok 5, pollExitedAtSpawn := false,
          read := ReadResult.empty, pollAliveAtEmpty := true,
          nowSpawn := 0, nowRead := 60 }
        { process := some 5, lastInference := 0 } = Except.ok
          ({ process := some 5, lastInference := 0 }, []) :=
  (stall_strict_boundary false 1
    { stopSet := false, spawn := Except.ok 5, pollExitedAtSpawn := false,
      read := ReadResult.empty, pollAliveAtEmpty := true,
      nowSpawn := 0, nowRead := 60 }
    { process := some 5, lastInference := 0 } 5 rfl rfl rfl rfl).2.2 rfl

/-- A stall log coming out of the read phase forces an empty read with the
child reported alive: the other branches of the `try` block never produce
one. -/
theorem readPhase_stall_mem (silent : Bool) (t : Nat) (obs : IterObs)
    (s : WorkerState)
    (hmem : WAction.logStall ∈ (readPhase silent t obs s).2) :
    obs.read = ReadResult.empty ∧ obs.pollAliveAtEmpty = true := by
  rcases hread : obs.read with out | _ | m
  · rcases hc : strContains out "Inference finished" <;>
      rcases hs : silent <;>
      simp [readPhase, hread, hc, hs] at hmem
  · rcases ha : obs.pollAliveAtEmpty
    · simp [readPhase, hread, ha] at hmem
    · exact ⟨rfl, rfl⟩
  · simp [readPhase, hread] at hmem

/-- C10: the stall comparison runs only in iterations whose read came back
empty with the child still alive: an iteration whose read produced a
truthy line behaves identically under any two timeout values, and any
iteration that logs a stall had an empty read with `poll()` reporting the
child alive. -/
theorem stall_check_only_on_empty_read (silent : Bool) (t1 t2 : Nat)
    (obs : IterObs) (s : WorkerState) :
    (∀ out, obs.read = ReadResult.line out →
      run_worker_iter silent t1 obs s = run_worker_iter silent t2 obs s) ∧
    (∀ s1 acts, run_worker_iter silent t1 obs s = Except.ok (s1, acts) →
      WAction.logStall ∈ acts →
      obs.read = ReadResult.empty ∧ obs.pollAliveAtEmpty = true) := by
  constructor
  · intro out hline
    simp only [run_worker_iter, readPhase, hline]
  · intro s1 acts h hmem
    rcases hproc : s.process with _ | p
    · rcases hsp : obs.spawn with e | pid
      · simp [run_worker_iter, hproc, hsp] at h
      · have hre : run_worker_iter silent t1 obs s = Except.ok
            ((readPhase silent t1 obs
                { process := some pid, lastInference := obs.nowSpawn }).1,
             WAction.spawned pid :: (readPhase silent t1 obs
                { process := some pid, lastInference := obs.nowSpawn }).2) := by
          simp [run_worker_iter, hproc, hsp]
        rw [hre] at h
        injection h with h'
        injection h' with ha hb
        subst hb
        rw [List.mem_cons] at hmem
        rcases hmem with hmem | hmem
        · exact absurd hmem (by simp)
        · exact readPhase_stall_mem silent t1 obs _ hmem
    · rcases hpoll : obs.pollExitedAtSpawn
      · have hre : run_worker_iter silent t1 obs s = Except.ok
            ((readPhase silent t1 obs s).1, (readPhase silent t1 obs s).2) := by
          simp [run_worker_iter, hproc, hpoll]
        rw [hre] at h
        injection h with h'
        injection h' with ha hb
        subst hb
        exact readPhase_stall_mem silent t1 obs s hmem
      · rcases hsp : obs.spawn with e | pid
        · simp [run_worker_iter, hproc, hpoll, hsp] at h
        · have hre : run_worker_iter silent t1 obs s = Except.ok
              ((readPhase silent t1 obs
                  { process := some pid, lastInference := obs.nowSpawn }).1,
               WAction.logRestart :: WAction.termCall (some p) ::
                 WAction.spawned pid :: (readPhase silent t1 obs
                  { process := some pid, lastInference := obs.nowSpawn }).2) := by
            simp [run_worker_iter, hproc, hpoll, hsp]
          rw [hre] at h
          injection h with h'
          injection h' with ha hb
          subst hb
          simp only [List.mem_cons] at hmem
          rcases hmem with hmem | hmem | hmem | hmem
          · exact absurd hmem (by simp)
          · exact absurd hmem (by simp)
          · exact absurd hmem (by simp)
          · exact readPhase_stall_mem silent t1 obs _ hmem

/-- C10 witness: an iteration that read the truthy line `"hello"` behaves
the same under a 1-minute and a 99-minute stall timeout — the stall clock
is never consulted. -/
theorem stall_check_only_on_empty_read_witness :
    run_worker_iter false 1
        { stopSet := false, spawn := Except.ok 3, pollExitedAtSpawn := false,
          read := ReadResult.line "hello", pollAliveAtEmpty := false,
          nowSpawn := 0, nowRead := 0 }
        { process := some 3, lastInference := 0 } =
      run_worker_iter false 99
        { stopSet := false, spawn := Except.ok 3, pollExitedAtSpawn := false,
          read := ReadResult.line "hello", pollAliveAtEmpty := false,
          nowSpawn := 0, nowRead := 0 }
        { process := some 3, lastInference := 0 } :=
  (stall_check_only_on_empty_read false 1 99
    { stopSet := false, spawn := Except.ok 3, pollExitedAtSpawn := false,
      read := ReadResult.line "hello", pollAliveAtEmpty := false,
      nowSpawn := 0, nowRead := 0 }
    { process := some 3, lastInference := 0 }).1 "hello" rfl

/-- An iteration whose spawn (if attempted) raised: `Popen` is the only
call of the loop body outside the `try`, so this is the only escape
path. -/
def spawnFailObs : IterObs :=
  { stopSet := false, spawn := Except.error "OSError: spawn failed",
    pollExitedAtSpawn := false, read := ReadResult.empty,
    pollAliveAtEmpty := false, nowSpawn := 0, nowRead := 0 }

/-- C2 counterexample: a spawn failure in the very first iteration escapes
`run_worker` as an unhandled exception — the claim that every failure path
inside the loop is caught is false. -/
theorem spawn_failure_escapes :
    run_worker false 60 [spawnFailObs] { process := none, lastInference := 0 } =
      Except.error "OSError: spawn failed" := rfl

/-- C2 amended: when every iteration whose spawn is consulted has a
successful spawn, `run_worker` returns normally — read errors (and the
termination calls they trigger) are absorbed by the `except` clause; only
a raised `Popen` error, which sits outside the `try`, escapes. -/
theorem run_worker_ok_of_spawns_ok (silent : Bool) (timeout : Nat)
    (trace : List IterObs) (s : WorkerState)
    (h : ∀ obs ∈ trace, exceptOk obs.spawn = true) :
    exceptOk (run_worker silent timeout trace s) = true := by
  induction trace generalizing s with
  | nil => rfl
  | cons obs rest ih =>
    have hobs : exceptOk obs.spawn = true := h obs (List.mem_cons_self obs rest)
    have hrest : ∀ o ∈ rest, exceptOk o.spawn = true :=
      fun o ho => h o (List.mem_cons_of_mem obs ho)
    rcases hstop : obs.stopSet
    · have hiter : exceptOk (run_worker_iter silent timeout obs s) = true := by
        rcases hsp : obs.spawn with e | pid
        · rw [hsp] at hobs; simp [exceptOk] at hobs
        · rcases hproc : s.process with _ | p
          · simp [run_worker_iter, hproc, hsp, exceptOk]
          · rcases hpoll : obs.pollExitedAtSpawn
            · simp [run_worker_iter, hproc, hpoll, exceptOk]
            · simp [run_worker_iter, hproc, hpoll, hsp, exceptOk]
      rcases hres : run_worker_iter silent timeout obs s with e | r
      · rw [hres] at hiter; simp [exceptOk] at hiter
      · rcases r with ⟨s1, acts⟩
        have hrec2 := ih s1 hrest
        rcases hrec : run_worker silent timeout rest s1 with e | out
        · rw [hrec] at hrec2; simp [exceptOk] at hrec2
        · rcases out with acts2 | ⟨s2, acts2⟩ <;>
            simp [run_worker, hstop, hres, hrec, exceptOk]
    · simp [run_worker, hstop, exceptOk]

/-- An iteration that spawns fine and then hits a read error. -/
def readErrObs : IterObs :=
  { stopSet := false, spawn := Except.ok 42, pollExitedAtSpawn := false,
    read := ReadResult.err "IOError", pollAliveAtEmpty := false,
    nowSpawn := 0, nowRead := 0 }

/-- C2 amended, witness: a worker that hits a read error returns normally
from the trace — the error is absorbed. -/
theorem run_worker_ok_of_spawns_ok_witness :
    exceptOk (run_worker false 60 [readErrObs]
      { process := none, lastInference := 0 }) = true :=
  run_worker_ok_of_spawns_ok false 60 [readErrObs]
    { process := none, lastInference := 0 }
    (by intro o ho; rw [List.mem_singleton] at ho; subst ho; rfl)

/-- First iteration of the `"echo A; sleep 600"` scenario: the spawned
shell prints `A` immediately. -/
def c4Obs1 : IterObs :=
  { stopSet := false, spawn := Except.ok 100, pollExitedAtSpawn := false,
    read := ReadResult.line "A", pollAliveAtEmpty := false,
    nowSpawn := 0, nowRead := 0 }

/-- Second iteration: the next `readline()` blocks from second 0 until
second 600, when `sleep 600` exits, the pipe closes and the read returns
empty; by then `poll()` reports the shell exited, so the stall branch's
guard `process.poll() is None` is false. -/
def c4Obs2 : IterObs :=
  { stopSet := false, spawn := Except.ok 100, pollExitedAtSpawn := false,
    read := ReadResult.empty, pollAliveAtEmpty := false,
    nowSpawn := 600, nowRead := 600 }

/-- Third iteration: the loop head sees the exited child and respawns via
the process-exit path. -/
def c4Obs3 : IterObs :=
  { stopSet := false, spawn := Except.ok 101, pollExitedAtSpawn := true,
    read := ReadResult.line "A", pollAliveAtEmpty := false,
    nowSpawn := 600, nowRead := 600 }

/-- C4: for `"echo A; sleep 600"` with a 1-minute stall timeout, the
worker's trace contains no stall restart at all — the blocking `readline`
prevents any stall check until end-of-file at second 600, where the child
has already exited and the worker restarts via the exit path
(`logRestart`), not the stall path (`logStall`). -/
theorem echo_sleep_no_stall_restart :
    run_worker false 1 [c4Obs1, c4Obs2, c4Obs3]
        { process := none, lastInference := 0 } =
      Except.ok (RunOutcome.running { process := some 101, lastInference := 600 }
        [WAction.spawned 100, WAction.emitLine "A", WAction.logRestart,
         WAction.termCall (some 100), WAction.spawned 101,
         WAction.emitLine "A"]) ∧
    WAction.logStall ∉
      [WAction.spawned 100, WAction.emitLine "A", WAction.logRestart,
       WAction.termCall (some 100), WAction.spawned 101,
       WAction.emitLine "A"] := by
  exact ⟨rfl, by decide⟩

/-- When every terminate signal to the children succeeds, the child loop
signals each child in enumeration order and raises nothing. -/
theorem signalChildren_all_ok (env : PsEnv) (cs : List Nat)
    (h : ∀ c ∈ cs, env.termSig c = Except.ok ()) :
    signalChildren env cs = (cs.map TermAction.termChild, none) := by
  induction cs with
  | nil => rfl
  | cons c rest ih =>
    have hc : env.termSig c = Except.ok () := h c (List.mem_cons_self c rest)
    have hrest := ih (fun q hq => h q (List.mem_cons_of_mem c hq))
    simp [signalChildren, hc, hrest]

/-- When every kill signal succeeds, the survivor loop force-kills each
survivor in order and raises nothing. -/
theorem killSurvivors_all_ok (env : PsEnv) (ps : List Nat)
    (h : ∀ p ∈ ps, env.killSig p = Except.ok ()) :
    killSurvivors env ps = (ps.map TermAction.killP, none) := by
  induction ps with
  | nil => rfl
  | cons p rest ih =>
    have hp : env.killSig p = Except.ok () := h p (List.mem_cons_self p rest)
    have hrest := ih (fun q hq => h q (List.mem_cons_of_mem p hq))
    simp [killSurvivors, hp, hrest]

/-- C6: `terminate_process` follows the two-phase protocol.  With no held
process it is an immediate no-op; otherwise (when the psutil calls do not
raise) it enumerates the recursive children, sends graceful terminate to
each child and then to the parent, waits up to 3 seconds on children and
parent together, and force-kills exactly the processes `wait_procs`
reported still alive. -/
theorem terminate_process_protocol (env : PsEnv) (pid wid : Nat)
    (cs gone alive : List Nat)
    (h1 : env.getProc pid = Except.ok ())
    (h2 : env.getChildren pid = Except.ok cs)
    (h3 : ∀ q ∈ cs, env.termSig q = Except.ok ())
    (h4 : env.termSig pid = Except.ok ())
    (h5 : env.waitProcs (cs ++ [pid]) 3 = Except.ok (gone, alive))
    (h6 : ∀ q ∈ alive, env.killSig q = Except.ok ()) :
    terminate_process env none wid = Except.ok [] ∧
    terminate_process env (some pid) wid = Except.ok
      (TermAction.logTerminating ::
        (cs.map TermAction.termChild ++
         [TermAction.termParent pid, TermAction.waitA (cs ++ [pid]) 3] ++
         alive.map TermAction.killP ++
         [TermAction.logCompleted])) := by
  refine ⟨rfl, ?_⟩
  have hsig := signalChildren_all_ok env cs h3
  have hkill := killSurvivors_all_ok env alive h6
  simp [terminate_process, terminateTry, h1, h2, hsig, h4, h5, hkill]

/-- A concrete happy-path environment: pid 7 has recursive children 8 and
9; after the 3-second wait, 8 is gone while 9 and the parent 7 survive
and get force-killed. -/
def happyEnv : PsEnv :=
  { getProc := fun _ => Except.ok ()
    getChildren := fun _ => Except.ok [8, 9]
    termSig := fun _ => Except.ok ()
    waitProcs := fun _ _ => Except.ok ([8], [9, 7])
    killSig := fun _ => Except.ok () }

/-- C6 witness: the protocol trace on the concrete environment. -/
theorem terminate_process_protocol_witness :
    terminate_process happyEnv (some 7) 1 = Except.ok
      (TermAction.logTerminating ::
        ([8, 9].map TermAction.termChild ++
         [TermAction.termParent 7, TermAction.waitA ([8, 9] ++ [7]) 3] ++
         [9, 7].map TermAction.killP ++
         [TermAction.logCompleted])) :=
  (terminate_process_protocol happyEnv 7 1 [8, 9] [8] [9, 7]
    rfl rfl (fun q _ => rfl) rfl rfl (fun q _ => rfl)).2

/-- C9: `terminate_process` never lets an exception past its boundary:
it returns normally on every input, is a no-op on an empty handle, always
ends with the completion log, absorbs an already-exited target
(`NoSuchProcess`) as the "already terminated" log, and logs-and-absorbs
any other failure. -/
theorem terminate_process_total (env : PsEnv) (process : Option Nat)
    (wid : Nat) :
    exceptOk (terminate_process env process wid) = true ∧
    terminate_process env none wid = Except.ok [] ∧
    (∀ pid, process = some pid →
      ∀ acts, terminate_process env process wid = Except.ok acts →
        acts.getLast? = some TermAction.logCompleted ∧
        ((terminateTry env pid).2 = some PsErr.noSuchProcess →
          TermAction.logAlreadyTerminated ∈ acts) ∧
        (∀ m, (terminateTry env pid).2 = some (PsErr.other m) →
          TermAction.logError m ∈ acts)) := by
  refine ⟨?_, rfl, ?_⟩
  · rcases process with _ | pid
    · rfl
    · rfl
  · intro pid hpid acts hacts
    subst hpid
    have hacts2 : acts = TermAction.logTerminating ::
        (terminateTry env pid).1 ++
        (match (terminateTry env pid).2 with
          | none => []
          | some PsErr.noSuchProcess => [TermAction.logAlreadyTerminated]
          | some (PsErr.other m) => [TermAction.logError m]) ++
        [TermAction.logCompleted] := by
      have : terminate_process env (some pid) wid = Except.ok
          (TermAction.logTerminating ::
            (terminateTry env pid).1 ++
            (match (terminateTry env pid).2 with
              | none => []
              | some PsErr.noSuchProcess => [TermAction.logAlreadyTerminated]
              | some (PsErr.other m) => [TermAction.logError m]) ++
            [TermAction.logCompleted]) := rfl
      rw [this] at hacts
      injection hacts with h'
      exact h'.symm
    subst hacts2
    refine ⟨?_, ?_, ?_⟩
    · exact List.getLast?_concat _
    · intro herr
      simp [herr]
    · intro m herr
      simp [herr]

/-- An environment whose child enumeration raises a generic exception. -/
def childrenFailEnv : PsEnv :=
  { getProc := fun _ => Except.ok ()
    getChildren := fun _ => Except.error (PsErr.other "boom")
    termSig := fun _ => Except.ok ()
    waitProcs := fun _ _ => Except.ok ([], [])
    killSig := fun _ => Except.ok () }

/-- C9 witness: with a failing child enumeration, the call still returns
normally and the error shows up as a logged action. -/
theorem terminate_process_total_witness :
    TermAction.logError "boom" ∈
      [TermAction.logTerminating, TermAction.logError "boom",
       TermAction.logCompleted] :=
  (((terminate_process_total childrenFailEnv (some 7) 0).2.2 7 rfl
    [TermAction.logTerminating, TermAction.logError "boom",
     TermAction.logCompleted] rfl).2.2) "boom" rfl

/-- C1 (code bug evaluation): after SIGINT is delivered, the stop flag is
set — but at the next 5-minute tick the main loop runs
`restart_all_workers`, which clears the flag again and starts a new
generation of workers, and `main` has not returned.  The claimed shutdown
(flag never cleared, no new WorkerLoop, exit 0) does not happen, because
the installed handler prevents the `KeyboardInterrupt` that the shutdown
branch of `main` waits for. -/
theorem sigint_then_tick_restarts :
    (supervisor_run 2 supInit [SupEvent.sigint]).stopFlag = true ∧
    (supervisor_run 2 supInit [SupEvent.sigint, SupEvent.tick]).stopFlag = false ∧
    (supervisor_run 2 supInit [SupEvent.sigint, SupEvent.tick]).exited = false ∧
    SupAction.startWorker 0 ∈
      (supervisor_run 2 supInit [SupEvent.sigint, SupEvent.tick]).trace ∧
    SupAction.startWorker 1 ∈
      (supervisor_run 2 supInit [SupEvent.sigint, SupEvent.tick]).trace ∧
    SupAction.clearFlag ∈
      (supervisor_run 2 supInit [SupEvent.sigint, SupEvent.tick]).trace := by
  decide

/-- C3 counterexample: with 2 workers, neither the restart join
(`restart_all_workers`) nor the shutdown join emits any child-termination
action — the supervisor only sets the flag and joins — and a worker whose
current read never completes (empty observation trace) stays running with
its child, so nothing the supervisor does unblocks the join. -/
theorem supervisor_join_never_terminates_cx :
    (restart_all_workers 2).all (fun a => !isTerminateChild a) = true ∧
    (shutdownJoin 2).all (fun a => !isTerminateChild a) = true ∧
    run_worker false 60 [] { process := some 100, lastInference := 0 } =
      Except.ok (RunOutcome.running
        { process := some 100, lastInference := 0 } []) := by
  exact ⟨by decide, by decide, rfl⟩

/-- The staggered start loop emits only start and sleep actions. -/
theorem terminateChild_not_mem_startWorkers (n k : Nat) :
    SupAction.terminateChild k ∉ startWorkers n := by
  intro h
  simp [startWorkers, List.mem_flatten, List.mem_map] at h

/-- `restart_all_workers` contains no child-termination action: its only
actions are the log line, the flag set, the joins, the flag clear and the
fresh starts. -/
theorem terminateChild_not_mem_restart (n k : Nat) :
    SupAction.terminateChild k ∉ restart_all_workers n := by
  intro h
  simp [restart_all_workers, startWorkers, List.mem_flatten,
    List.mem_map, List.mem_append, List.mem_cons] at h

/-- The shutdown join of `main` contains no child-termination action. -/
theorem terminateChild_not_mem_shutdown (n k : Nat) :
    SupAction.terminateChild k ∉ shutdownJoin n := by
  intro h
  simp [shutdownJoin, List.mem_cons, List.mem_map] at h

/-- C3 amended: the supervisor performs no proactive child termination
during a restart or shutdown join — it only sets the stop flag and waits;
each worker terminates its own child itself, after its current read has
completed and it has observed the flag at the loop head; a worker whose
read never completes is never unblocked by the supervisor. -/
theorem supervisor_join_no_terminate (n : Nat) (silent : Bool)
    (timeout : Nat) (obs : IterObs) (rest : List IterObs)
    (s : WorkerState) (p : Nat) :
    (restart_all_workers n).all (fun a => !isTerminateChild a) = true ∧
    (shutdownJoin n).all (fun a => !isTerminateChild a) = true ∧
    (obs.stopSet = true → s.process = some p →
      run_worker silent timeout (obs :: rest) s = Except.ok
        (RunOutcome.stopped
          [WAction.logStopping, WAction.termCall (some p)])) ∧
    run_worker silent timeout [] s =
      Except.ok (RunOutcome.running s []) := by
  refine ⟨?_, ?_, ?_, rfl⟩
  · rw [List.all_eq_true]
    intro a ha
    cases a <;> try rfl
    exact absurd ha (terminateChild_not_mem_restart n _)
  · rw [List.all_eq_true]
    intro a ha
    cases a <;> try rfl
    exact absurd ha (terminateChild_not_mem_shutdown n _)
  · intro hstop hproc
    simp [run_worker, hstop, stopActs, hproc]

/-- C3 amended, witness: a worker holding child 9 that completes a read
and sees the flag set stops and terminates its own child. -/
theorem supervisor_join_no_terminate_witness :
    run_worker false 60
        [{ stopSet := true, spawn := Except.ok 0, pollExitedAtSpawn := false,
           read := ReadResult.empty, pollAliveAtEmpty := false,
           nowSpawn := 0, nowRead := 0 }]
        { process := some 9, lastInference := 0 } = Except.ok
      (RunOutcome.stopped
        [WAction.logStopping, WAction.termCall (some 9)]) :=
  (supervisor_join_no_terminate 2 false 60
    { stopSet := true, spawn := Except.ok 0, pollExitedAtSpawn := false,
      read := ReadResult.empty, pollAliveAtEmpty := false,
      nowSpawn := 0, nowRead := 0 } []
    { process := some 9, lastInference := 0 } 9).2.2.1 rfl rfl

/-- Unfolding the staggered start loop by one worker. -/
theorem startWorkers_succ (n : Nat) :
    startWorkers (n + 1) =
      startWorkers n ++ [SupAction.startWorker n, SupAction.sleepSec 1] := by
  simp [startWorkers, List.range_succ]

/-- Each started worker contributes two actions (start, sleep). -/
theorem startWorkers_length (n : Nat) :
    (startWorkers n).length = 2 * n := by
  induction n with
  | zero => rfl
  | succ m ih =>
    rw [startWorkers_succ, List.length_append, ih]
    simp
    omega

/-- The start loop starts exactly the ids `0, ..., n-1`, in that order. -/
theorem startWorkers_ids (n : Nat) :
    (startWorkers n).filterMap startedId = List.range n := by
  induction n with
  | zero => rfl
  | succ m ih =>
    rw [startWorkers_succ, List.filterMap_append, ih, List.range_succ]
    simp [startedId]

/-- A restart cycle also starts exactly the ids `0, ..., n-1`, in order:
the log, flag and join actions start nothing. -/
theorem restart_ids (n : Nat) :
    (restart_all_workers n).filterMap startedId = List.range n := by
  have hj : ((List.range n).map SupAction.joinWorker).filterMap startedId
      = [] := by
    rw [List.filterMap_eq_nil_iff]
    intro a ha
    rw [List.mem_map] at ha
    rcases ha with ⟨i, _, rfl⟩
    rfl
  simp [restart_all_workers, List.filterMap_cons, List.filterMap_append, hj,
    startWorkers_ids n, startedId]

/-- Start action for id `j` sits at offset `2j` of the start loop, with
the 1-second sleep right after it. -/
theorem startWorkers_getElem (n j : Nat) (h : j < n) :
    (startWorkers n)[2 * j]? = some (SupAction.startWorker j) ∧
    (startWorkers n)[2 * j + 1]? = some (SupAction.sleepSec 1) := by
  induction n with
  | zero => exact absurd h (Nat.not_lt_zero j)
  | succ m ih =>
    rw [startWorkers_succ]
    rcases Nat.lt_succ_iff_lt_or_eq.mp h with h1 | h1
    · have hl : 2 * j + 1 < (startWorkers m).length := by
        rw [startWorkers_length]; omega
      have hl2 : 2 * j < (startWorkers m).length := by omega
      rw [List.getElem?_append_left hl2, List.getElem?_append_left hl]
      exact ih h1
    · subst h1
      have hle : (startWorkers j).length ≤ 2 * j := by
        rw [startWorkers_length]
      have hle2 : (startWorkers j).length ≤ 2 * j + 1 := by
        rw [startWorkers_length]; omega
      constructor
      · rw [List.getElem?_append_right hle, startWorkers_length,
          Nat.sub_self]
        rfl
      · rw [List.getElem?_append_right hle2, startWorkers_length]
        have hidx : 2 * j + 1 - 2 * j = 1 := by omega
        rw [hidx]
        rfl

/-- Everything in the start loop is a start or a sleep. -/
theorem mem_startWorkers_shape {n : Nat} {a : SupAction}
    (h : a ∈ startWorkers n) :
    a = SupAction.sleepSec 1 ∨ ∃ j, j < n ∧ a = SupAction.startWorker j := by
  simp only [startWorkers, List.mem_flatten, List.mem_map] at h
  rcases h with ⟨l, ⟨j, hj, rfl⟩, hal⟩
  rw [List.mem_range] at hj
  rw [List.mem_cons, List.mem_singleton] at hal
  rcases hal with rfl | rfl
  · exact Or.inr ⟨j, hj, rfl⟩
  · exact Or.inl rfl

/-- C8: for every `n`, the initial fleet startup and the start phase of
every restart cycle start exactly `n` workers, with the distinct ids
`0, ..., n-1` in ascending order, and each start is followed by the
1-second stagger sleep. -/
theorem fleet_start_ids (n : Nat) :
    (startWorkers n).filterMap startedId = List.range n ∧
    (restart_all_workers n).filterMap startedId = List.range n ∧
    (∀ j, j < n →
      (startWorkers n)[2 * j]? = some (SupAction.startWorker j) ∧
      (startWorkers n)[2 * j + 1]? = some (SupAction.sleepSec 1)) :=
  ⟨startWorkers_ids n, restart_ids n,
   fun j hj => startWorkers_getElem n j hj⟩

/-- C8 witness: with 3 workers, the start actions are exactly ids 0, 1, 2
in order, and the start of id 1 sits at offset 2 followed by its sleep. -/
theorem fleet_start_ids_witness :
    (startWorkers 3).filterMap startedId = List.range 3 ∧
    (startWorkers 3)[2 * 1]? = some (SupAction.startWorker 1) ∧
    (startWorkers 3)[2 * 1 + 1]? = some (SupAction.sleepSec 1) :=
  ⟨(fleet_start_ids 3).1,
   ((fleet_start_ids 3).2.2 1 (by omega)).1,
   ((fleet_start_ids 3).2.2 1 (by omega)).2⟩

/-- C7: a restart cycle performs its phases in the exact order flag-set
(index 1), joins of every current worker (indices 2..n+1, in id order),
flag-clear (index n+2), then fresh starts (id j at index n+3+2j); every
join action in the cycle sits strictly between the flag set and the flag
clear, and every start action sits strictly after the flag clear — so all
old-generation workers are joined before any new-generation worker
starts. -/
theorem restart_phase_order (n : Nat) :
    (restart_all_workers n)[1]? = some SupAction.setFlag ∧
    (∀ i, i < n →
      (restart_all_workers n)[i + 2]? = some (SupAction.joinWorker i)) ∧
    (restart_all_workers n)[n + 2]? = some SupAction.clearFlag ∧
    (∀ j, j < n →
      (restart_all_workers n)[n + 2 * j + 3]? =
        some (SupAction.startWorker j)) ∧
    (∀ k i, (restart_all_workers n)[k]? = some (SupAction.joinWorker i) →
      2 ≤ k ∧ k < n + 2) ∧
    (∀ k j, (restart_all_workers n)[k]? = some (SupAction.startWorker j) →
      n + 2 < k) := by
  have hlen : ((List.range n).map SupAction.joinWorker).length = n := by
    simp
  have hshift : ∀ m : Nat, (restart_all_workers n)[m + 1 + 1]? =
      ((List.range n).map SupAction.joinWorker ++
        SupAction.clearFlag :: startWorkers n)[m]? := by
    intro m
    simp only [restart_all_workers, List.cons_append,
      List.getElem?_cons_succ]
  refine ⟨?_, ?_, ?_, ?_, ?_, ?_⟩
  · simp [restart_all_workers]
  · intro i hi
    have hidx : i + 2 = i + 1 + 1 := by omega
    rw [hidx, hshift,
      List.getElem?_append_left (by rw [hlen]; omega),
      List.getElem?_map, List.getElem?_range hi]
    rfl
  · have hidx : n + 2 = n + 1 + 1 := by omega
    rw [hidx, hshift,
      List.getElem?_append_right (le_of_eq hlen), hlen, Nat.sub_self]
    simp
  · intro j hj
    have hidx : n + 2 * j + 3 = (n + 2 * j + 1) + 1 + 1 := by omega
    rw [hidx, hshift,
      List.getElem?_append_right (by rw [hlen]; omega), hlen]
    have hidx2 : n + 2 * j + 1 - n = 2 * j + 1 := by omega
    rw [hidx2, List.getElem?_cons_succ]
    exact (startWorkers_getElem n j hj).1
  · intro k i hk
    rcases k with _ | _ | m
    · simp [restart_all_workers] at hk
    · simp [restart_all_workers] at hk
    · refine ⟨by omega, ?_⟩
      by_contra hnm
      have hm : n ≤ m := by omega
      rw [hshift,
        List.getElem?_append_right (by rw [hlen]; omega), hlen] at hk
      rcases hd : m - n with _ | q
      · rw [hd] at hk
        simp at hk
      · rw [hd, List.getElem?_cons_succ] at hk
        have hmem := List.getElem?_mem hk
        rcases mem_startWorkers_shape hmem with h1 | ⟨j2, _, h1⟩ <;>
          cases h1
  · intro k j hk
    rcases k with _ | _ | m
    · simp [restart_all_workers] at hk
    · simp [restart_all_workers] at hk
    · rw [hshift] at hk
      by_contra hnm
      have hm : m ≤ n := by omega
      rcases Nat.lt_or_ge m n with h1 | h1
      · rw [List.getElem?_append_left (by rw [hlen]; omega),
          List.getElem?_map, List.getElem?_range h1] at hk
        simp at hk
      · have hmn : m = n := by omega
        subst hmn
        rw [List.getElem?_append_right (le_of_eq hlen), hlen,
          Nat.sub_self] at hk
        simp at hk

/-- C7 witness: with 2 workers, the flag set sits at index 1, the join of
worker 1 at index 3, the flag clear at index 4 and the start of worker 1
at index 7, and the join of worker 0 is located strictly before the flag
clear. -/
theorem restart_phase_order_witness :
    (restart_all_workers 2)[1]? = some SupAction.setFlag ∧
    (restart_all_workers 2)[3]? = some (SupAction.joinWorker 1) ∧
    (restart_all_workers 2)[4]? = some SupAction.clearFlag ∧
    (restart_all_workers 2)[7]? = some (SupAction.startWorker 1) :=
  ⟨(restart_phase_order 2).1,
   (restart_phase_order 2).2.1 1 (by omega),
   (restart_phase_order 2).2.2.1,
   (restart_phase_order 2).2.2.2.1 1 (by omega)⟩

end KuzcoWorkers
